import Mathlib

/-!
Shallow embedding of the OpenSBI PMU core (`sbi_pmu.c`) and of its
boot-time registration interface, together with theorems checking the
natural-language specification against the code.

Machine integers are modelled as `Nat` with explicit `% 2 ^ xlen`
truncation where overflow matters.  Per-hart arrays are modelled as
total functions from hart id and index; fallible operations return the
C `int` result as a Lean `Int` together with the successor state.
-/

/- ----------------------------------------------------------------- -/
/- Constants from the SBI PMU headers (`sbi_pmu.h`, `sbi_error.h`,
   `riscv_encoding.h`).  These headers are not part of the two source
   files; the values below are the architected / SBI-specified ones the
   source is written against. -/

/-- Maximum number of hardware counters (`SBI_PMU_HW_CTR_MAX`). -/
def SBI_PMU_HW_CTR_MAX : Nat := 32

/-- Maximum number of firmware counters (`SBI_PMU_FW_CTR_MAX`). -/
def SBI_PMU_FW_CTR_MAX : Nat := 16

/-- Capacity of the hardware event map (`SBI_PMU_HW_EVENT_MAX`). -/
def SBI_PMU_HW_EVENT_MAX : Nat := 64

/-- Number of known firmware event codes (`SBI_PMU_FW_MAX`). -/
def SBI_PMU_FW_MAX : Nat := 32

/-- Event index marking a raw event (`SBI_PMU_EVENT_RAW_IDX`): type 2, code 0. -/
def SBI_PMU_EVENT_RAW_IDX : Nat := 0x20000

/-- The invalid / unbound event marker (`SBI_PMU_EVENT_IDX_INVALID`). -/
def SBI_PMU_EVENT_IDX_INVALID : Nat := 0xFFFFFFFF

/-- Firmware event type (`SBI_PMU_EVENT_TYPE_FW`). -/
def SBI_PMU_EVENT_TYPE_FW : Nat := 15

/-- Number of event types (`SBI_PMU_EVENT_TYPE_MAX`). -/
def SBI_PMU_EVENT_TYPE_MAX : Nat := 16

/-- Event code of the cycle counter event (`SBI_PMU_HW_CPU_CYCLES`). -/
def SBI_PMU_HW_CPU_CYCLES : Nat := 0

/-- Event code of the instructions-retired event (`SBI_PMU_HW_INSTRUCTIONS`). -/
def SBI_PMU_HW_INSTRUCTIONS : Nat := 2

/-- Counter type reported for hardware counters (`SBI_PMU_CTR_TYPE_HW`). -/
def SBI_PMU_CTR_TYPE_HW : Nat := 0

/-- Counter type reported for firmware counters (`SBI_PMU_CTR_TYPE_FW`). -/
def SBI_PMU_CTR_TYPE_FW : Nat := 1

/-- `SBI_EFAIL` -/
def SBI_EFAIL : Int := -1

/-- `SBI_ENOTSUPP` -/
def SBI_ENOTSUPP : Int := -2

/-- `SBI_EINVAL` -/
def SBI_EINVAL : Int := -3

/-- `SBI_EDENIED` -/
def SBI_EDENIED : Int := -4

/-- `SBI_EINVALID_ADDR` (the RangeConflict result of registration) -/
def SBI_EINVALID_ADDR : Int := -5

/-- `SBI_EALREADY_STARTED` -/
def SBI_EALREADY_STARTED : Int := -7

/-- `SBI_EALREADY_STOPPED` -/
def SBI_EALREADY_STOPPED : Int := -8

/-- CSR number of `mcounteren`. -/
def CSR_MCOUNTEREN : Nat := 0x306

/-- CSR number of `mcountinhibit`. -/
def CSR_MCOUNTINHIBIT : Nat := 0x320

/-- CSR number of `mcycle` (base of the machine counter file). -/
def CSR_MCYCLE : Nat := 0xB00

/-- CSR number of `mcycleh` (upper halves on rv32). -/
def CSR_MCYCLEH : Nat := 0xB80

/-- CSR number of `cycle` (base of the user-visible counter file). -/
def CSR_CYCLE : Nat := 0xC00

/-- `get_cidx_type(x) = (x & SBI_PMU_EVENT_IDX_TYPE_MASK) >> 16` with
type mask `0xF0000`. -/
def get_cidx_type (x : Nat) : Nat := (x &&& 0xF0000) >>> 16

/-- `get_cidx_code(x) = x & SBI_PMU_EVENT_IDX_CODE_MASK` with code mask
`0xFFFF`. -/
def get_cidx_code (x : Nat) : Nat := x &&& 0xFFFF

/- ----------------------------------------------------------------- -/
/- Data model -/

/-- `struct sbi_pmu_hw_event`: mapping between an event range (or a raw
selector) and the counters that may serve it. -/
structure HwEvent where
  counters : Nat
  start_idx : Nat
  end_idx : Nat
  select : Nat
deriving DecidableEq, Repr

/-- `struct sbi_pmu_fw_event`: one per-hart firmware counter. -/
structure FwEvent where
  event_idx : Nat
  curr_count : Nat
  bStarted : Bool
deriving DecidableEq, Repr

/-- The mutable state of the PMU core.  `hw_events` is the prefix of
`hw_event_map` holding the `num_hw_events` registered entries; the
per-hart arrays `active_events` and `fw_event_map` are total functions
from hart id and index; `csr` maps a CSR number to its current value.
`hart_pmu_event_bits` models `sbi_hart_pmu_event_bits(scratch)` and
`plat_mhpmevent` models `sbi_platform_get_mhpmevent_value(plat, ., .)`. -/
structure PmuState where
  xlen : Nat
  num_hw_ctrs : Nat
  total_ctrs : Nat
  hw_events : List HwEvent
  active_events : Nat → Nat → Nat
  fw_event_map : Nat → Nat → FwEvent
  csr : Nat → Nat
  hart_pmu_event_bits : Nat
  plat_mhpmevent : Nat → Nat → Nat

/-- Point update of the per-hart `active_events` array
(`active_events[hart][cidx] = v`). -/
def updActive (f : Nat → Nat → Nat) (hart cidx v : Nat) : Nat → Nat → Nat :=
  fun h i => if h = hart ∧ i = cidx then v else f h i

/-- Point update of the per-hart `fw_event_map` array. -/
def updFw (f : Nat → Nat → FwEvent) (hart code : Nat) (v : FwEvent) : Nat → Nat → FwEvent :=
  fun h c => if h = hart ∧ c = code then v else f h c

/-- CSR write (`csr_write` / `csr_write_num`). -/
def writeCsr (s : PmuState) (addr v : Nat) : PmuState :=
  { s with csr := fun a => if a = addr then v else s.csr a }

/-- `__set_bit(nr, &w)` on an `unsigned long`. -/
def set_bit (nr w : Nat) : Nat := w ||| (1 <<< nr)

/-- `__clear_bit(nr, &w)`: `w & ~(1 << nr)`.  Setting the bit first and
then subtracting `2 ^ nr` clears exactly that bit. -/
def clear_bit (nr w : Nat) : Nat := (w ||| (1 <<< nr)) - (1 <<< nr)

/- ----------------------------------------------------------------- -/
/- HWEventRegistry: boot-time registration (`pmu_add_hw_event_map` and
   its two entry points).  The registry state is the list of entries
   `hw_event_map[0 .. num_hw_events)`. -/

/-- `pmu_event_range_overlap`: returns `false` iff the closed ranges do
not overlap, exactly as the C condition is written. -/
def pmu_event_range_overlap (evtA evtB : HwEvent) : Bool :=
  if (evtA.end_idx < evtB.start_idx ∧ evtA.end_idx < evtB.end_idx) ∨
     (evtB.start_idx < evtA.start_idx ∧ evtB.end_idx < evtA.start_idx) then
    false
  else
    true

/-- `pmu_event_select_overlap`: exact equality on the select value. -/
def pmu_event_select_overlap (evt : HwEvent) (select_val : Nat) : Bool :=
  decide (evt.select = select_val)

/-- `pmu_add_hw_event_map(eidx_start, eidx_end, cmap, select)`.  The C
writes the candidate entry into slot `num_hw_events` before the sanity
loop, but that slot only becomes part of the registry when
`num_hw_events` is incremented on success, so the registry is modelled
as the list of committed entries. -/
def pmu_add_hw_event_map (m : List HwEvent) (eidx_start eidx_end cmap select : Nat) :
    Int × List HwEvent :=
  if (eidx_start = SBI_PMU_HW_CPU_CYCLES ∧ cmap ≠ 0x1) ∨
     (eidx_start = SBI_PMU_HW_INSTRUCTIONS ∧ cmap ≠ 0x4) ∨
     (SBI_PMU_HW_INSTRUCTIONS < eidx_start ∧ cmap < 0x08) then
    (SBI_EDENIED, m)
  else if SBI_PMU_HW_EVENT_MAX - 1 ≤ m.length then
    (SBI_EFAIL, m)
  else if m.any (fun e =>
      if eidx_start = SBI_PMU_EVENT_RAW_IDX then
        pmu_event_select_overlap e select
      else
        pmu_event_range_overlap e
          { counters := cmap, start_idx := eidx_start, end_idx := eidx_end, select := select }) then
    (SBI_EINVALID_ADDR, m)
  else
    ((0 : Int),
     m ++ [{ counters := cmap, start_idx := eidx_start, end_idx := eidx_end, select := select }])

/-- `sbi_pmu_add_hw_event_counter_map` (range registration). -/
def sbi_pmu_add_hw_event_counter_map (m : List HwEvent) (eidx_start eidx_end cmap : Nat) :
    Int × List HwEvent :=
  if eidx_end < eidx_start ∨ eidx_start = SBI_PMU_EVENT_RAW_IDX ∨
     eidx_end = SBI_PMU_EVENT_RAW_IDX then
    (SBI_EINVAL, m)
  else
    pmu_add_hw_event_map m eidx_start eidx_end cmap 0

/-- `sbi_pmu_add_raw_event_counter_map` (raw registration). -/
def sbi_pmu_add_raw_event_counter_map (m : List HwEvent) (select cmap : Nat) :
    Int × List HwEvent :=
  pmu_add_hw_event_map m SBI_PMU_EVENT_RAW_IDX SBI_PMU_EVENT_RAW_IDX cmap select

/-- Registry states reachable from the empty registry by any sequence of
the two registration calls. -/
inductive ReachableReg : List HwEvent → Prop where
  | init : ReachableReg []
  | addRange (m : List HwEvent) (a b c : Nat) :
      ReachableReg m → ReachableReg (sbi_pmu_add_hw_event_counter_map m a b c).2
  | addRaw (m : List HwEvent) (sel c : Nat) :
      ReachableReg m → ReachableReg (sbi_pmu_add_raw_event_counter_map m sel c).2

/-- Registry well-formedness: every entry has an ordered range, and the
closed ranges of any two non-raw entries are disjoint. -/
def regWF (m : List HwEvent) : Prop :=
  (∀ e ∈ m, e.start_idx ≤ e.end_idx) ∧
  List.Pairwise (fun a b =>
    a.start_idx ≠ SBI_PMU_EVENT_RAW_IDX → b.start_idx ≠ SBI_PMU_EVENT_RAW_IDX →
    (a.end_idx < b.start_idx ∨ b.end_idx < a.start_idx)) m

/- ----------------------------------------------------------------- -/
/- CounterControl and CounterAllocator -/

/-- `pmu_validate_ctr(cidx, &event_idx_code)`, instrumented with the
list of `active_events` column indices it loads, in program order.  The
C loads `active_events[hartid][cidx]` before the `cidx >= total_ctrs`
bounds check, so `cidx` is recorded unconditionally.  The result is the
returned `int` (the event type on success, `SBI_EINVAL` on failure)
paired with `*event_idx_code` (left at 0 when the C leaves the out
parameter unwritten). -/
def pmu_validate_ctr_traced (s : PmuState) (hart cidx : Nat) : (Int × Nat) × List Nat :=
  ((if s.total_ctrs ≤ cidx ∨ s.active_events hart cidx = SBI_PMU_EVENT_IDX_INVALID then
      (SBI_EINVAL, 0)
    else if SBI_PMU_EVENT_TYPE_MAX ≤ get_cidx_type (s.active_events hart cidx) then
      (SBI_EINVAL, 0)
    else
      ((get_cidx_type (s.active_events hart cidx) : Int),
       get_cidx_code (s.active_events hart cidx))),
   [cidx])

/-- `pmu_validate_ctr` without the instrumentation. -/
def pmu_validate_ctr (s : PmuState) (hart cidx : Nat) : Int × Nat :=
  (pmu_validate_ctr_traced s hart cidx).1

/-- `sbi_pmu_read_fw_ctr`: value stored into `*cval`. -/
def sbi_pmu_read_fw_ctr (s : PmuState) (hart fw_evt_code : Nat) : Nat :=
  (s.fw_event_map hart fw_evt_code).curr_count

/-- `sbi_pmu_read_hw_ctr`: the widened value it stores into `*cval`
(combining the `mcycleh`/`mcycle` halves when the native word is 32
bits wide). -/
def sbi_pmu_read_hw_ctr (s : PmuState) (cidx : Nat) : Nat :=
  if s.xlen = 32 then
    (s.csr (CSR_MCYCLEH + cidx) <<< 32) ||| s.csr (CSR_MCYCLE + cidx)
  else
    s.csr (CSR_MCYCLE + cidx)

/-- `sbi_pmu_read_ctr(cidx, cval)`: result and final `*cval` given the
caller's previous `*cval`.  On the hardware path the C reads the
counter into the local `cval64` and never assigns `*cval`, so the
output parameter keeps its old value there. -/
def sbi_pmu_read_ctr (s : PmuState) (hart cidx cval : Nat) : Int × Nat :=
  if (pmu_validate_ctr s hart cidx).1 < 0 then
    (SBI_EINVAL, cval)
  else if (pmu_validate_ctr s hart cidx).1 = ((SBI_PMU_EVENT_TYPE_FW : Nat) : Int) then
    ((0 : Int), sbi_pmu_read_fw_ctr s hart (pmu_validate_ctr s hart cidx).2)
  else
    ((0 : Int), cval)

/-- `pmu_start_hw_ctr(cidx, ival)`. -/
def pmu_start_hw_ctr (s : PmuState) (cidx ival : Nat) : Int × PmuState :=
  if s.num_hw_ctrs < cidx then
    (SBI_EINVAL, s)
  else if (s.csr CSR_MCOUNTEREN).testBit cidx ∧ ¬(s.csr CSR_MCOUNTINHIBIT).testBit cidx then
    (SBI_EALREADY_STARTED, s)
  else
    let s1 := writeCsr s CSR_MCOUNTEREN (set_bit cidx (s.csr CSR_MCOUNTEREN))
    let s2 := writeCsr s1 CSR_MCOUNTINHIBIT (clear_bit cidx (s.csr CSR_MCOUNTINHIBIT))
    if s.xlen = 32 then
      ((0 : Int), writeCsr (writeCsr s2 (CSR_MCYCLE + cidx) (ival &&& 0xFFFF))
        (CSR_MCYCLEH + cidx) (ival >>> 32))
    else
      ((0 : Int), writeCsr s2 (CSR_MCYCLE + cidx) ival)

/-- `pmu_start_fw_ctr(cidx, ival, fw_evt_code)`: stores `ival`
(truncated to an `unsigned long`) and marks the event started. -/
def pmu_start_fw_ctr (s : PmuState) (hart ival fw_evt_code : Nat) : Int × PmuState :=
  let fev := { s.fw_event_map hart fw_evt_code with
    curr_count := ival % 2 ^ s.xlen, bStarted := true }
  ((0 : Int), { s with fw_event_map := updFw s.fw_event_map hart fw_evt_code fev })

/-- `sbi_pmu_start_ctr(cidx, ival)`. -/
def sbi_pmu_start_ctr (s : PmuState) (hart cidx ival : Nat) : Int × PmuState :=
  if (pmu_validate_ctr s hart cidx).1 < 0 then
    (SBI_EINVAL, s)
  else if (pmu_validate_ctr s hart cidx).1 = ((SBI_PMU_EVENT_TYPE_FW : Nat) : Int) then
    pmu_start_fw_ctr s hart ival (pmu_validate_ctr s hart cidx).2
  else
    pmu_start_hw_ctr s cidx ival

/-- `pmu_stop_hw_ctr(cidx)`. -/
def pmu_stop_hw_ctr (s : PmuState) (cidx : Nat) : Int × PmuState :=
  if (s.csr CSR_MCOUNTEREN).testBit cidx ∧ ¬(s.csr CSR_MCOUNTINHIBIT).testBit cidx then
    ((0 : Int),
     writeCsr (writeCsr s CSR_MCOUNTEREN (clear_bit cidx (s.csr CSR_MCOUNTEREN)))
       CSR_MCOUNTINHIBIT (set_bit cidx (s.csr CSR_MCOUNTINHIBIT)))
  else
    (SBI_EALREADY_STOPPED, s)

/-- `pmu_stop_fw_ctr(cidx, fw_evt_code)`: clears `bStarted`
unconditionally and always succeeds. -/
def pmu_stop_fw_ctr (s : PmuState) (hart fw_evt_code : Nat) : Int × PmuState :=
  let fev := { s.fw_event_map hart fw_evt_code with bStarted := false }
  ((0 : Int), { s with fw_event_map := updFw s.fw_event_map hart fw_evt_code fev })

/-- `sbi_pmu_stop_ctr(cidx, bReset)`: dispatch on the bound event type,
then clear the binding exactly when the underlying stop succeeded and
reset was requested. -/
def sbi_pmu_stop_ctr (s : PmuState) (hart cidx : Nat) (bReset : Bool) : Int × PmuState :=
  if (pmu_validate_ctr s hart cidx).1 < 0 then
    (SBI_EINVAL, s)
  else
    let rs := if (pmu_validate_ctr s hart cidx).1 = ((SBI_PMU_EVENT_TYPE_FW : Nat) : Int) then
        pmu_stop_fw_ctr s hart (pmu_validate_ctr s hart cidx).2
      else
        pmu_stop_hw_ctr s cidx
    if rs.1 = 0 ∧ bReset = true then
      (rs.1,
       { rs.2 with
         active_events := updActive rs.2.active_events hart cidx SBI_PMU_EVENT_IDX_INVALID })
    else
      rs

/-- `sbi_pmu_incr_fw_ctr(fw_id)`: the `curr_count++` of the C wraps at
the native word width, modelled by `% 2 ^ xlen`. -/
def sbi_pmu_incr_fw_ctr (s : PmuState) (hart fw_id : Nat) : Int × PmuState :=
  if SBI_PMU_FW_MAX ≤ fw_id then
    (SBI_EINVAL, s)
  else if (s.fw_event_map hart fw_id).bStarted then
    let fev := { s.fw_event_map hart fw_id with
      curr_count := ((s.fw_event_map hart fw_id).curr_count + 1) % 2 ^ s.xlen }
    ((0 : Int), { s with fw_event_map := updFw s.fw_event_map hart fw_id fev })
  else
    ((0 : Int), s)

/-- `sbi_pmu_num_ctr()`. -/
def sbi_pmu_num_ctr (s : PmuState) : Nat := s.num_hw_ctrs + SBI_PMU_FW_CTR_MAX

/-- Value of `union sbi_pmu_ctr_info` with bitfields `csr:12`,
`width:6`, reserved zero, and `type:1` in the top bit of the native
word. -/
def ctr_info_value (xlen csr width typ : Nat) : Nat :=
  csr + width * 2 ^ 12 + typ * 2 ^ (xlen - 1)

/-- `sbi_pmu_get_ctr_info(cidx, ctr_info)`: result and final
`*ctr_info` given its previous value (the C leaves the out parameter
unwritten on failure). -/
def sbi_pmu_get_ctr_info (s : PmuState) (cidx old : Nat) : Int × Nat :=
  if s.total_ctrs < cidx ∨ cidx = 1 then
    (SBI_EINVAL, old)
  else if cidx ≤ s.num_hw_ctrs then
    ((0 : Int), ctr_info_value s.xlen (CSR_CYCLE + cidx)
      (if cidx = 0 ∨ cidx = 2 then 63 else s.hart_pmu_event_bits) SBI_PMU_CTR_TYPE_HW)
  else
    ((0 : Int), ctr_info_value s.xlen 0 (s.xlen - 1) SBI_PMU_CTR_TYPE_FW)

/-- `pmu_find_fw_ctr(cbase, cmask, hartid)`: scan from
`num_hw_ctrs + 1` (when `cbase <= num_hw_ctrs`) or from `cbase`
upwards, returning the first index below `total_ctrs` whose binding is
INVALID and whose bit is set in `cmask << cbase`. -/
def pmu_find_fw_ctr (s : PmuState) (hart cbase cmask : Nat) : Int :=
  match (List.range' (if cbase ≤ s.num_hw_ctrs then s.num_hw_ctrs + 1 else cbase)
      (s.total_ctrs - (if cbase ≤ s.num_hw_ctrs then s.num_hw_ctrs + 1 else cbase))).find?
      (fun i => decide (s.active_events hart i = SBI_PMU_EVENT_IDX_INVALID) &&
                decide ((1 <<< i) &&& ((cmask <<< cbase) % 2 ^ s.xlen) ≠ 0)) with
  | some i => (i : Int)
  | none => SBI_ENOTSUPP

/-- The `for_each_set_bit_from(cbase, &ctr_mask, SBI_PMU_HW_CTR_MAX)`
loop body of `pmu_find_hw_ctr`: starting from `jstart`, find the first
set bit whose counter is available (enable clear and inhibit set);
returns the final value of the loop variable together with the found
counter, if any. -/
def hw_inner_scan (ctr_mask en inh jstart : Nat) : Nat × Option Nat :=
  match (List.range' jstart (SBI_PMU_HW_CTR_MAX - jstart)).find?
      (fun k => ctr_mask.testBit k && !(en.testBit k) && inh.testBit k) with
  | some k => (k, some k)
  | none => (SBI_PMU_HW_CTR_MAX, none)

/-- The outer event-map loop of `pmu_find_hw_ctr`.  The C reuses
`cbase` as the inner loop variable, so its value carries over from one
event-map entry to the next; `found` is the running `ctr_idx`. -/
def hw_outer_scan (s : PmuState) (cmask event_idx data en inh : Nat) :
    List HwEvent → Nat → Option Nat → Nat × Option Nat
  | [], cbase, found => (cbase, found)
  | e :: rest, cbase, found =>
    if (event_idx < e.start_idx ∧ event_idx < e.end_idx) ∨
       (e.start_idx < event_idx ∧ e.end_idx < event_idx) then
      hw_outer_scan s cmask event_idx data en inh rest cbase found
    else if event_idx = SBI_PMU_EVENT_RAW_IDX ∧ e.select ≠ data then
      hw_outer_scan s cmask event_idx data en inh rest cbase found
    else
      match hw_inner_scan (e.counters &&& ((cmask <<< cbase) % 2 ^ s.xlen)) en inh cbase with
      | (cb2, some k) => hw_outer_scan s cmask event_idx data en inh rest cb2 (some k)
      | (cb2, none) => hw_outer_scan s cmask event_idx data en inh rest cb2 found

/-- `pmu_update_hw_mhpmevent`: asks the platform for the selector value
and programs `mhpmeventN` (CSR `CSR_MCOUNTINHIBIT + ctr_idx`). -/
def pmu_update_hw_mhpmevent (s : PmuState) (ctr_idx eindex data : Nat) : Int × PmuState :=
  if s.plat_mhpmevent eindex data = 0 ∨ ctr_idx < 3 ∨ SBI_PMU_HW_CTR_MAX ≤ ctr_idx then
    (SBI_EFAIL, s)
  else
    ((0 : Int), writeCsr s (CSR_MCOUNTINHIBIT + ctr_idx) (s.plat_mhpmevent eindex data))

/-- `pmu_find_hw_ctr(cbase, cmask, event_idx, data)`. -/
def pmu_find_hw_ctr (s : PmuState) (cbase cmask event_idx data : Nat) : Int × PmuState :=
  if s.num_hw_ctrs < cbase then
    (SBI_EINVAL, s)
  else
    match hw_outer_scan s cmask event_idx data (s.csr CSR_MCOUNTEREN)
        (s.csr CSR_MCOUNTINHIBIT) s.hw_events cbase none with
    | (_, none) => (SBI_EFAIL, s)
    | (_, some k) =>
      if get_cidx_code event_idx = SBI_PMU_HW_CPU_CYCLES ∨
         get_cidx_code event_idx = SBI_PMU_HW_INSTRUCTIONS then
        ((k : Int), s)
      else
        let rs := pmu_update_hw_mhpmevent s k event_idx data
        if rs.1 = 0 then ((k : Int), rs.2) else rs

/-- `sbi_pmu_get_ctr_match(cidx_base, cidx_mask, event_idx, event_data,
flags)`: the allocator.  On success it binds
`active_events[hartid][ctr_idx] = event_idx` and returns the index. -/
def sbi_pmu_get_ctr_match (s : PmuState) (hart cidx_base cidx_mask event_idx event_data
    flags : Nat) : Int × PmuState :=
  if s.total_ctrs ≤ cidx_base ∨ SBI_PMU_EVENT_TYPE_MAX ≤ get_cidx_type event_idx then
    (SBI_EINVAL, s)
  else
    let rs := if get_cidx_type event_idx = SBI_PMU_EVENT_TYPE_FW then
        (pmu_find_fw_ctr s hart cidx_base cidx_mask, s)
      else
        pmu_find_hw_ctr s cidx_base cidx_mask event_idx event_data
    if rs.1 < 0 then
      (SBI_ENOTSUPP, rs.2)
    else
      (rs.1, { rs.2 with active_events := updActive rs.2.active_events hart rs.1.toNat event_idx })

/-- `pmu_reset_event_map(hartid)`: reset that hart's bindings to
INVALID for indices below `total_ctrs` and clear its firmware events
below `SBI_PMU_FW_CTR_MAX`. -/
def pmu_reset_event_map (s : PmuState) (hart : Nat) : PmuState :=
  { s with
    active_events := fun h i =>
      if h = hart ∧ i < s.total_ctrs then SBI_PMU_EVENT_IDX_INVALID else s.active_events h i,
    fw_event_map := fun h c =>
      if h = hart ∧ c < SBI_PMU_FW_CTR_MAX then { event_idx := 0, curr_count := 0, bStarted := false }
      else s.fw_event_map h c }

/-- A state with two hardware counters, no bindings and all CSRs zero. -/
def stateA : PmuState :=
  { xlen := 64, num_hw_ctrs := 2, total_ctrs := 18, hw_events := [],
    active_events := fun _ _ => SBI_PMU_EVENT_IDX_INVALID,
    fw_event_map := fun _ _ => { event_idx := 0, curr_count := 0, bStarted := false },
    csr := fun _ => 0, hart_pmu_event_bits := 48, plat_mhpmevent := fun _ _ => 0 }

/-- A state where counter 0 of hart 0 is bound to the hardware cycle
event and the `mcycle` register holds 100. -/
def stateB : PmuState :=
  { xlen := 64, num_hw_ctrs := 2, total_ctrs := 18, hw_events := [],
    active_events := fun h i => if h = 0 ∧ i = 0 then 0 else SBI_PMU_EVENT_IDX_INVALID,
    fw_event_map := fun _ _ => { event_idx := 0, curr_count := 0, bStarted := false },
    csr := fun a => if a = CSR_MCYCLE then 100 else 0,
    hart_pmu_event_bits := 48, plat_mhpmevent := fun _ _ => 0 }

/-- A state where counter 0 of hart 0 is bound to a hardware event and
is running: enable bit 0 set, inhibit bit 0 clear. -/
def stateC : PmuState :=
  { xlen := 64, num_hw_ctrs := 2, total_ctrs := 18, hw_events := [],
    active_events := fun h i => if h = 0 ∧ i = 0 then 5 else SBI_PMU_EVENT_IDX_INVALID,
    fw_event_map := fun _ _ => { event_idx := 0, curr_count := 0, bStarted := false },
    csr := fun a => if a = CSR_MCOUNTEREN then 1 else 0,
    hart_pmu_event_bits := 48, plat_mhpmevent := fun _ _ => 0 }

/-- A state where counter 2 of hart 0 is bound to firmware event 1,
which is started with count 9. -/
def stateD : PmuState :=
  { xlen := 64, num_hw_ctrs := 2, total_ctrs := 18, hw_events := [],
    active_events := fun h i => if h = 0 ∧ i = 2 then 0xF0001 else SBI_PMU_EVENT_IDX_INVALID,
    fw_event_map := fun h c =>
      if h = 0 ∧ c = 1 then { event_idx := 0xF0001, curr_count := 9, bStarted := true }
      else { event_idx := 0, curr_count := 0, bStarted := false },
    csr := fun _ => 0, hart_pmu_event_bits := 48, plat_mhpmevent := fun _ _ => 0 }

/-- A state with ten hardware counters, used for the counter-info
boundary analysis. -/
def stateE : PmuState :=
  { xlen := 64, num_hw_ctrs := 10, total_ctrs := 26, hw_events := [],
    active_events := fun _ _ => SBI_PMU_EVENT_IDX_INVALID,
    fw_event_map := fun _ _ => { event_idx := 0, curr_count := 0, bStarted := false },
    csr := fun _ => 0, hart_pmu_event_bits := 40, plat_mhpmevent := fun _ _ => 0 }

/- ----------------------------------------------------------------- -/
/- Theorems -/

theorem overlap_false_of_disjoint {a b : HwEvent}
    (hb : b.start_idx ≤ b.end_idx)
    (h : a.end_idx < b.start_idx ∨ b.end_idx < a.start_idx) :
    pmu_event_range_overlap a b = false := by
  unfold pmu_event_range_overlap
  rw [if_pos]
  omega

theorem disjoint_of_overlap_false {a b : HwEvent}
    (h : pmu_event_range_overlap a b = false) :
    a.end_idx < b.start_idx ∨ b.end_idx < a.start_idx := by
  unfold pmu_event_range_overlap at h
  by_cases hc : (a.end_idx < b.start_idx ∧ a.end_idx < b.end_idx) ∨
      (b.start_idx < a.start_idx ∧ b.end_idx < a.start_idx)
  · omega
  · rw [if_neg hc] at h
    cases h

theorem regWF_append (m : List HwEvent) (ev : HwEvent) (hw : regWF m)
    (hwf : ev.start_idx ≤ ev.end_idx)
    (hnew : ∀ x ∈ m, x.start_idx ≠ SBI_PMU_EVENT_RAW_IDX →
      ev.start_idx ≠ SBI_PMU_EVENT_RAW_IDX →
      (x.end_idx < ev.start_idx ∨ ev.end_idx < x.start_idx)) :
    regWF (m ++ [ev]) := by
  constructor
  · intro e he
    rcases List.mem_append.1 he with h1 | h1
    · exact hw.1 e h1
    · simp only [List.mem_singleton] at h1
      subst h1
      exact hwf
  · rw [List.pairwise_append]
    refine ⟨hw.2, List.pairwise_singleton _ _, ?_⟩
    intro x hx y hy
    simp only [List.mem_singleton] at hy
    subst hy
    exact hnew x hx

theorem regWF_add (m : List HwEvent) (a b c sel : Nat) (hw : regWF m) (hab : a ≤ b) :
    regWF (pmu_add_hw_event_map m a b c sel).2 := by
  unfold pmu_add_hw_event_map
  split
  · exact hw
  split
  · exact hw
  by_cases hraw : a = SBI_PMU_EVENT_RAW_IDX
  · simp only [if_pos hraw]
    split
    · exact hw
    · refine regWF_append m _ hw hab ?_
      intro x hx hxraw hyraw
      exact absurd hraw hyraw
  · simp only [if_neg hraw]
    split
    · exact hw
    · rename_i hno
      simp only [List.any_eq_true, not_exists, not_and] at hno
      refine regWF_append m _ hw hab ?_
      intro x hx hxraw hyraw
      have hp := hno x hx
      have hfalse : pmu_event_range_overlap x
          { counters := c, start_idx := a, end_idx := b, select := sel } = false := by
        cases hb2 : pmu_event_range_overlap x
            { counters := c, start_idx := a, end_idx := b, select := sel }
        · rfl
        · exact absurd hb2 hp
      exact disjoint_of_overlap_false hfalse

theorem reachable_regWF {m : List HwEvent} (h : ReachableReg m) : regWF m := by
  induction h with
  | init => exact ⟨by simp, List.Pairwise.nil⟩
  | addRange m a b c hm ih =>
      unfold sbi_pmu_add_hw_event_counter_map
      split
      · exact ih
      · rename_i hcond
        exact regWF_add m a b c 0 ih (by omega)
  | addRaw m sel c hm ih =>
      exact regWF_add m _ _ c sel ih le_rfl

/-- C1 (amended): after any sequence of registration calls no two
distinct non-raw registry entries have overlapping closed
`[start_idx, end_idx]` ranges; and a range registration whose range
overlaps an existing entry, provided it is not rejected first by the
argument precheck, the fixed-function policy check (Denied) or the
capacity check (Fail), returns `SBI_EINVALID_ADDR` (RangeConflict) and
leaves the registry unchanged. -/
theorem pmu_registry_no_overlap (m : List HwEvent) (h : ReachableReg m) :
    (∀ a ∈ m, ∀ b ∈ m, a ≠ b →
        a.start_idx ≠ SBI_PMU_EVENT_RAW_IDX → b.start_idx ≠ SBI_PMU_EVENT_RAW_IDX →
        pmu_event_range_overlap a b = false) ∧
    (∀ a b c : Nat, a ≤ b →
        a ≠ SBI_PMU_EVENT_RAW_IDX → b ≠ SBI_PMU_EVENT_RAW_IDX →
        ¬((a = SBI_PMU_HW_CPU_CYCLES ∧ c ≠ 0x1) ∨
          (a = SBI_PMU_HW_INSTRUCTIONS ∧ c ≠ 0x4) ∨
          (SBI_PMU_HW_INSTRUCTIONS < a ∧ c < 0x08)) →
        m.length < SBI_PMU_HW_EVENT_MAX - 1 →
        (∃ e ∈ m, pmu_event_range_overlap e
            { counters := c, start_idx := a, end_idx := b, select := 0 } = true) →
        sbi_pmu_add_hw_event_counter_map m a b c = (SBI_EINVALID_ADDR, m)) := by
  have hwf := reachable_regWF h
  constructor
  · intro a ha b hb hne hra hrb
    have hsym : Symmetric (fun a b : HwEvent =>
        a.start_idx ≠ SBI_PMU_EVENT_RAW_IDX → b.start_idx ≠ SBI_PMU_EVENT_RAW_IDX →
        (a.end_idx < b.start_idx ∨ b.end_idx < a.start_idx)) := by
      intro x y hxy hy hx
      exact (hxy hx hy).symm
    have := hwf.2.forall hsym ha hb hne hra hrb
    exact overlap_false_of_disjoint (hwf.1 b hb) this
  · intro a b c hab hra hrb hden hcap hover
    unfold sbi_pmu_add_hw_event_counter_map
    rw [if_neg (by push_neg; exact ⟨by omega, hra, hrb⟩)]
    unfold pmu_add_hw_event_map
    rw [if_neg hden, if_neg (by omega)]
    rw [if_pos]
    rcases hover with ⟨e, he, hov⟩
    rw [List.any_eq_true]
    refine ⟨e, he, ?_⟩
    rw [if_neg hra]
    exact hov

/-- C1 counterexample: with `[3,10] ↦ 0x8` registered, the overlapping
range registration of the cycle event with bitmap `0x2` is rejected with
Denied, not RangeConflict, because the fixed-function policy check runs
before the overlap check. -/
theorem pmu_registry_overlap_denied_first :
    sbi_pmu_add_hw_event_counter_map [] 3 10 8 =
      ((0 : Int), [{ counters := 8, start_idx := 3, end_idx := 10, select := 0 }]) ∧
    sbi_pmu_add_hw_event_counter_map
        [{ counters := 8, start_idx := 3, end_idx := 10, select := 0 }] 0 5 2 =
      (SBI_EDENIED, [{ counters := 8, start_idx := 3, end_idx := 10, select := 0 }]) ∧
    pmu_event_range_overlap { counters := 8, start_idx := 3, end_idx := 10, select := 0 }
        { counters := 2, start_idx := 0, end_idx := 5, select := 0 } = true ∧
    SBI_EDENIED ≠ SBI_EINVALID_ADDR := by
  refine ⟨by decide, by decide, by decide, by decide⟩

/-- C1 witness: the theorem applied to the reachable one-entry registry. -/
theorem pmu_registry_no_overlap_witness :
    (∀ a ∈ [{ counters := 8, start_idx := 3, end_idx := 10, select := 0 : HwEvent }],
        ∀ b ∈ [{ counters := 8, start_idx := 3, end_idx := 10, select := 0 : HwEvent }],
        a ≠ b →
        a.start_idx ≠ SBI_PMU_EVENT_RAW_IDX → b.start_idx ≠ SBI_PMU_EVENT_RAW_IDX →
        pmu_event_range_overlap a b = false) ∧
    (∀ a b c : Nat, a ≤ b →
        a ≠ SBI_PMU_EVENT_RAW_IDX → b ≠ SBI_PMU_EVENT_RAW_IDX →
        ¬((a = SBI_PMU_HW_CPU_CYCLES ∧ c ≠ 0x1) ∨
          (a = SBI_PMU_HW_INSTRUCTIONS ∧ c ≠ 0x4) ∨
          (SBI_PMU_HW_INSTRUCTIONS < a ∧ c < 0x08)) →
        [{ counters := 8, start_idx := 3, end_idx := 10, select := 0 : HwEvent }].length <
          SBI_PMU_HW_EVENT_MAX - 1 →
        (∃ e ∈ [{ counters := 8, start_idx := 3, end_idx := 10, select := 0 : HwEvent }],
            pmu_event_range_overlap e
              { counters := c, start_idx := a, end_idx := b, select := 0 } = true) →
        sbi_pmu_add_hw_event_counter_map
            [{ counters := 8, start_idx := 3, end_idx := 10, select := 0 }] a b c =
          (SBI_EINVALID_ADDR,
           [{ counters := 8, start_idx := 3, end_idx := 10, select := 0 }])) := by
  have hr : ReachableReg [{ counters := 8, start_idx := 3, end_idx := 10, select := 0 }] := by
    have h0 := ReachableReg.addRange [] 3 10 8 ReachableReg.init
    have he : (sbi_pmu_add_hw_event_counter_map [] 3 10 8).2 =
        [{ counters := 8, start_idx := 3, end_idx := 10, select := 0 }] := by decide
    rw [he] at h0
    exact h0
  exact pmu_registry_no_overlap _ hr

theorem get_cidx_type_lt (x : Nat) : get_cidx_type x < 16 := by
  unfold get_cidx_type
  have h1 : x &&& 0xF0000 ≤ 0xF0000 := Nat.and_le_right
  have h2 : (x &&& 0xF0000) >>> 16 ≤ 0xF0000 >>> 16 := by
    simp only [Nat.shiftRight_eq_div_pow]
    exact Nat.div_le_div_right h1
  have h3 : (0xF0000 : Nat) >>> 16 = 15 := by decide
  omega

/-- On a validly bound counter, `pmu_validate_ctr` returns the decoded
type and code of the binding. -/
theorem pmu_validate_ctr_valid (s : PmuState) (hart cidx : Nat)
    (hc : cidx < s.total_ctrs)
    (hv : s.active_events hart cidx ≠ SBI_PMU_EVENT_IDX_INVALID) :
    pmu_validate_ctr s hart cidx =
      (((get_cidx_type (s.active_events hart cidx) : Nat) : Int),
       get_cidx_code (s.active_events hart cidx)) := by
  unfold pmu_validate_ctr pmu_validate_ctr_traced
  rw [if_neg (by push_neg; exact ⟨by omega, hv⟩)]
  rw [if_neg (by have := get_cidx_type_lt (s.active_events hart cidx); unfold SBI_PMU_EVENT_TYPE_MAX; omega)]

theorem find?_range'_eq_some (p : Nat → Bool) :
    ∀ (n a i : Nat), a ≤ i → i < a + n → p i = true →
      (∀ j, a ≤ j → j < i → p j = false) →
      (List.range' a n).find? p = some i := by
  intro n
  induction n with
  | zero =>
    intro a i h1 h2 _ _
    exact absurd h2 (by omega)
  | succ n ih =>
    intro a i h1 h2 hp hmin
    rw [List.range'_succ]
    by_cases ha : a = i
    · subst ha
      rw [List.find?_cons_of_pos _ hp]
    · have hai : a < i := lt_of_le_of_ne h1 ha
      have hpa : p a = false := hmin a le_rfl hai
      rw [List.find?_cons_of_neg _ (by simp [hpa])]
      exact ih (a + 1) i hai (by omega) hp (fun j hj1 hj2 => hmin j (by omega) hj2)

/-- C2 (amended): a firmware-type allocation with base `cbase` and mask
`cmask` scans indices from `max(cbase, num_hw_ctrs + 1)` upward (the
code treats index `num_hw_ctrs` itself as hardware-backed, so the first
firmware-allocatable index is `num_hw_ctrs + 1`), and binds and returns
the first index below `total_ctrs` whose bit is set in
`cmask << cbase` and whose ActiveEventBinding is INVALID, changing no
other state and programming no hardware register. -/
theorem fw_ctr_match_first_fit (s : PmuState)
    (hart cbase cmask eidx data flags i : Nat)
    (hbase : cbase < s.total_ctrs)
    (htype : get_cidx_type eidx = SBI_PMU_EVENT_TYPE_FW)
    (hlb : max cbase (s.num_hw_ctrs + 1) ≤ i)
    (hub : i < s.total_ctrs)
    (hinv : s.active_events hart i = SBI_PMU_EVENT_IDX_INVALID)
    (hbit : (1 <<< i) &&& ((cmask <<< cbase) % 2 ^ s.xlen) ≠ 0)
    (hfirst : ∀ j, max cbase (s.num_hw_ctrs + 1) ≤ j → j < i →
      ¬(s.active_events hart j = SBI_PMU_EVENT_IDX_INVALID ∧
        (1 <<< j) &&& ((cmask <<< cbase) % 2 ^ s.xlen) ≠ 0)) :
    sbi_pmu_get_ctr_match s hart cbase cmask eidx data flags =
      ((i : Int), { s with active_events := updActive s.active_events hart i eidx }) := by
  have hfw : pmu_find_fw_ctr s hart cbase cmask = ((i : Nat) : Int) := by
    unfold pmu_find_fw_ctr
    have hfb : (if cbase ≤ s.num_hw_ctrs then s.num_hw_ctrs + 1 else cbase) =
        max cbase (s.num_hw_ctrs + 1) := by
      split <;> omega
    rw [hfb]
    rw [find?_range'_eq_some _ _ _ i hlb (by omega) (by simp [hinv, hbit]) ?first]
    case first =>
      intro j hj1 hj2
      have hnj := hfirst j hj1 hj2
      by_cases hA : s.active_events hart j = SBI_PMU_EVENT_IDX_INVALID
      · have hB : ¬((1 <<< j) &&& ((cmask <<< cbase) % 2 ^ s.xlen) ≠ 0) :=
          fun hB => hnj ⟨hA, hB⟩
        simp [hA, hB]
      · simp [hA]
  unfold sbi_pmu_get_ctr_match
  rw [if_neg (by
    push_neg
    refine ⟨hbase, ?_⟩
    rw [htype]
    decide)]
  rw [htype]
  simp only [if_pos rfl]
  rw [hfw]
  rw [if_neg (by exact not_lt.2 (Int.natCast_nonneg i))]
  simp

/-- C2 counterexample: with two hardware counters and every binding
INVALID, the first firmware index per the claim is
`max(base, num_hw_ctrs) = 2`, its bit is set in the mask and its
binding is INVALID, yet the allocator returns 3: the scan starts at
`num_hw_ctrs + 1`, not at `num_hw_ctrs`. -/
theorem fw_ctr_match_skips_first_fw_index :
    (sbi_pmu_get_ctr_match stateA 0 0 0xFFFF 0xF0000 0 0).1 = (3 : Int) ∧
    max 0 stateA.num_hw_ctrs = 2 ∧
    stateA.active_events 0 2 = SBI_PMU_EVENT_IDX_INVALID ∧
    (1 <<< 2) &&& ((0xFFFF <<< 0) % 2 ^ stateA.xlen) ≠ 0 ∧
    ((3 : Int) ≠ (2 : Int)) := by
  refine ⟨by decide, by decide, by decide, by decide, by decide⟩

/-- C2 witness: the amended theorem at a concrete state, binding and
returning counter 3. -/
theorem fw_ctr_match_first_fit_witness :
    sbi_pmu_get_ctr_match stateA 0 0 0xFFFF 0xF0000 0 0 =
      ((3 : Int), { stateA with active_events := updActive stateA.active_events 0 3 0xF0000 }) := by
  refine fw_ctr_match_first_fit stateA 0 0 0xFFFF 0xF0000 0 0 3
    (by decide) (by decide) (by decide) (by decide) (by decide) (by decide) ?_
  intro j h1 h2
  simp only [stateA] at h1
  exact absurd h2 (by omega)

/-- C3 (code bug): on a hardware-bound counter, `sbi_pmu_read_ctr`
returns success but leaves the output parameter unchanged (42), even
though the hardware counter value computed by `sbi_pmu_read_hw_ctr` is
100: the C reads the register into the local `cval64` and never assigns
`*cval`. -/
theorem read_ctr_discards_hw_value :
    sbi_pmu_read_ctr stateB 0 0 42 = ((0 : Int), 42) ∧
    sbi_pmu_read_hw_ctr stateB 0 = 100 ∧
    (42 : Nat) ≠ 100 := by
  refine ⟨by decide, by decide, by decide⟩

/-- C4 (amended): `register_range` returns Denied exactly when the
arguments pass the range precheck (ordered, no raw sentinel) and either
the cycle event is registered with a bitmap other than `0x1`, the
instructions-retired event with a bitmap other than `0x4`, or an event
code greater than instructions-retired with a bitmap below `0x8` —
i.e. the third clause keys on `cmap < 8`, not on claiming the two
reserved bits. -/
theorem register_range_denied_iff (m : List HwEvent) (a b c : Nat) :
    (sbi_pmu_add_hw_event_counter_map m a b c).1 = SBI_EDENIED ↔
      (a ≤ b ∧ a ≠ SBI_PMU_EVENT_RAW_IDX ∧ b ≠ SBI_PMU_EVENT_RAW_IDX ∧
       ((a = SBI_PMU_HW_CPU_CYCLES ∧ c ≠ 0x1) ∨
        (a = SBI_PMU_HW_INSTRUCTIONS ∧ c ≠ 0x4) ∨
        (SBI_PMU_HW_INSTRUCTIONS < a ∧ c < 0x08))) := by
  unfold sbi_pmu_add_hw_event_counter_map pmu_add_hw_event_map
  split_ifs with h1 h2 h3 h4 h5 h6
  · refine iff_of_false (fun hx => (by decide : SBI_EINVAL ≠ SBI_EDENIED) hx) ?_
    rintro ⟨hab, hra, hrb, _⟩
    rcases h1 with h | h | h
    · omega
    · exact hra h
    · exact hrb h
  · push_neg at h1
    exact iff_of_true rfl ⟨h1.1, h1.2.1, h1.2.2, h2⟩
  · exact iff_of_false (fun hx => (by decide : SBI_EFAIL ≠ SBI_EDENIED) hx)
      (fun hx => h2 hx.2.2.2)
  · exact iff_of_false (fun hx => (by decide : SBI_EINVALID_ADDR ≠ SBI_EDENIED) hx)
      (fun hx => h2 hx.2.2.2)
  · exact iff_of_false (fun hx => (by decide : (0 : Int) ≠ SBI_EDENIED) hx)
      (fun hx => h2 hx.2.2.2)
  · exact iff_of_false (fun hx => (by decide : SBI_EINVALID_ADDR ≠ SBI_EDENIED) hx)
      (fun hx => h2 hx.2.2.2)
  · exact iff_of_false (fun hx => (by decide : (0 : Int) ≠ SBI_EDENIED) hx)
      (fun hx => h2 hx.2.2.2)

/-- C4 counterexample: registering event 3 with bitmap 0x9 — which
claims reserved bit 0 — succeeds rather than returning Denied; and the
cycle event with a non-architected bitmap but a raw end index returns
Invalid, not Denied. -/
theorem register_range_denied_counterexample :
    (sbi_pmu_add_hw_event_counter_map [] 3 3 9).1 = (0 : Int) ∧
    9 &&& 0x5 ≠ 0 ∧
    (sbi_pmu_add_hw_event_counter_map [] 0 SBI_PMU_EVENT_RAW_IDX 2).1 = SBI_EINVAL ∧
    (0 : Int) ≠ SBI_EDENIED ∧ SBI_EINVAL ≠ SBI_EDENIED := by
  refine ⟨by decide, by decide, by decide, by decide, by decide⟩

/-- C5 (amended): a raw registration passing the policy and capacity
checks is rejected with RangeConflict if and only if some previously
registered entry — raw or range, range entries storing select 0 — has
the same select value; on conflict the registry is unchanged. -/
theorem register_raw_conflict_iff (m : List HwEvent) (sel c : Nat)
    (hc : 8 ≤ c) (hcap : m.length < SBI_PMU_HW_EVENT_MAX - 1) :
    ((sbi_pmu_add_raw_event_counter_map m sel c).1 = SBI_EINVALID_ADDR ↔
      ∃ e ∈ m, e.select = sel) ∧
    ((∃ e ∈ m, e.select = sel) →
      sbi_pmu_add_raw_event_counter_map m sel c = (SBI_EINVALID_ADDR, m)) := by
  unfold sbi_pmu_add_raw_event_counter_map pmu_add_hw_event_map
  rw [if_neg (by
    rintro (⟨h, _⟩ | ⟨h, _⟩ | ⟨_, h⟩)
    · exact absurd h (by decide)
    · exact absurd h (by decide)
    · omega)]
  rw [if_neg (by omega)]
  simp only [eq_self_iff_true, if_true]
  have hany : (m.any fun e => pmu_event_select_overlap e sel) = true ↔ ∃ e ∈ m, e.select = sel := by
    rw [List.any_eq_true]
    unfold pmu_event_select_overlap
    simp
  by_cases hex : ∃ e ∈ m, e.select = sel
  · rw [if_pos (hany.2 hex)]
    exact ⟨iff_of_true rfl hex, fun _ => rfl⟩
  · rw [if_neg (fun hx => hex (hany.1 hx))]
    exact ⟨iff_of_false (fun hx => (by decide : (0 : Int) ≠ SBI_EINVALID_ADDR) hx) hex,
      fun hx => absurd hx hex⟩

/-- C5 counterexample: after one range registration (which stores
select 0), a raw registration with select 0 is rejected with
RangeConflict although no raw mapping was previously registered. -/
theorem register_raw_conflict_counterexample :
    (sbi_pmu_add_raw_event_counter_map
        [{ counters := 8, start_idx := 3, end_idx := 10, select := 0 }] 0 8).1 =
      SBI_EINVALID_ADDR ∧
    (∀ e ∈ [{ counters := 8, start_idx := 3, end_idx := 10, select := 0 : HwEvent }],
        e.start_idx ≠ SBI_PMU_EVENT_RAW_IDX) := by
  refine ⟨by decide, by decide⟩

/-- C5 witness: the amended theorem at the one-entry registry. -/
theorem register_raw_conflict_iff_witness :
    (((sbi_pmu_add_raw_event_counter_map
          [{ counters := 8, start_idx := 3, end_idx := 10, select := 0 }] 0 8).1 =
        SBI_EINVALID_ADDR ↔
      ∃ e ∈ [{ counters := 8, start_idx := 3, end_idx := 10, select := 0 : HwEvent }],
        e.select = 0) ∧
     ((∃ e ∈ [{ counters := 8, start_idx := 3, end_idx := 10, select := 0 : HwEvent }],
         e.select = 0) →
       sbi_pmu_add_raw_event_counter_map
           [{ counters := 8, start_idx := 3, end_idx := 10, select := 0 }] 0 8 =
         (SBI_EINVALID_ADDR,
          [{ counters := 8, start_idx := 3, end_idx := 10, select := 0 }]))) :=
  register_raw_conflict_iff _ 0 8 (by decide) (by decide)

/-- C6 (confirmed): on a validly bound hardware counter, `start` with
enable bit set and inhibit bit clear returns AlreadyStarted and changes
nothing; `stop` when not in that running state returns AlreadyStopped
and changes nothing. -/
theorem hw_ctr_already_started_stopped (s : PmuState) (hart cidx ival : Nat) (r : Bool)
    (hc : cidx < s.total_ctrs)
    (hv : s.active_events hart cidx ≠ SBI_PMU_EVENT_IDX_INVALID)
    (hhw : get_cidx_type (s.active_events hart cidx) ≠ SBI_PMU_EVENT_TYPE_FW)
    (hidx : cidx ≤ s.num_hw_ctrs) :
    ((s.csr CSR_MCOUNTEREN).testBit cidx = true →
      (s.csr CSR_MCOUNTINHIBIT).testBit cidx = false →
      sbi_pmu_start_ctr s hart cidx ival = (SBI_EALREADY_STARTED, s)) ∧
    (¬((s.csr CSR_MCOUNTEREN).testBit cidx = true ∧
       (s.csr CSR_MCOUNTINHIBIT).testBit cidx = false) →
      sbi_pmu_stop_ctr s hart cidx r = (SBI_EALREADY_STOPPED, s)) := by
  have hval := pmu_validate_ctr_valid s hart cidx hc hv
  have hnneg : ¬(((get_cidx_type (s.active_events hart cidx) : Nat) : Int) < 0) :=
    not_lt.2 (Int.natCast_nonneg _)
  have hnfw : ¬(((get_cidx_type (s.active_events hart cidx) : Nat) : Int) =
      ((SBI_PMU_EVENT_TYPE_FW : Nat) : Int)) :=
    fun hx => hhw (by exact_mod_cast hx)
  constructor
  · intro hen hinh
    unfold sbi_pmu_start_ctr
    rw [hval]
    rw [if_neg hnneg, if_neg hnfw]
    unfold pmu_start_hw_ctr
    rw [if_neg (by omega)]
    rw [if_pos ⟨hen, by simp [hinh]⟩]
  · intro hcond
    have hrun : ¬((s.csr CSR_MCOUNTEREN).testBit cidx ∧
        ¬(s.csr CSR_MCOUNTINHIBIT).testBit cidx) := by
      rintro ⟨hA, hB⟩
      exact hcond ⟨hA, by simpa using hB⟩
    have hstop : pmu_stop_hw_ctr s cidx = (SBI_EALREADY_STOPPED, s) := by
      unfold pmu_stop_hw_ctr
      rw [if_neg hrun]
    unfold sbi_pmu_stop_ctr
    rw [hval]
    rw [if_neg hnneg]
    simp only [if_neg hnfw]
    rw [hstop]
    rw [if_neg (fun hx => (by decide : SBI_EALREADY_STOPPED ≠ (0 : Int)) hx.1)]

/-- C6 witness: counter 0 of hart 0 in `stateC` is running, so starting
it again reports AlreadyStarted without changing the state. -/
theorem hw_ctr_already_started_stopped_witness :
    ((stateC.csr CSR_MCOUNTEREN).testBit 0 = true →
      (stateC.csr CSR_MCOUNTINHIBIT).testBit 0 = false →
      sbi_pmu_start_ctr stateC 0 0 100 = (SBI_EALREADY_STARTED, stateC)) ∧
    (¬((stateC.csr CSR_MCOUNTEREN).testBit 0 = true ∧
       (stateC.csr CSR_MCOUNTINHIBIT).testBit 0 = false) →
      sbi_pmu_stop_ctr stateC 0 0 false = (SBI_EALREADY_STOPPED, stateC)) :=
  hw_ctr_already_started_stopped stateC 0 0 100 false
    (by decide) (by decide) (by decide) (by decide)

/-- C7 (confirmed): on a validly bound counter, `stop(idx, reset)`
clears the ActiveEventBinding to INVALID exactly when the underlying
stop succeeded and reset was requested; on any stop error the bindings
are untouched; and a firmware-backed stop always succeeds with the
started flag cleared. -/
theorem stop_ctr_reset_binding (s : PmuState) (hart cidx : Nat) (bReset : Bool)
    (hc : cidx < s.total_ctrs)
    (hv : s.active_events hart cidx ≠ SBI_PMU_EVENT_IDX_INVALID) :
    ((sbi_pmu_stop_ctr s hart cidx bReset).2.active_events hart cidx =
        SBI_PMU_EVENT_IDX_INVALID ↔
      ((sbi_pmu_stop_ctr s hart cidx bReset).1 = 0 ∧ bReset = true)) ∧
    ((sbi_pmu_stop_ctr s hart cidx bReset).1 ≠ 0 →
      (sbi_pmu_stop_ctr s hart cidx bReset).2.active_events = s.active_events) ∧
    (get_cidx_type (s.active_events hart cidx) = SBI_PMU_EVENT_TYPE_FW →
      (sbi_pmu_stop_ctr s hart cidx bReset).1 = 0 ∧
      ((sbi_pmu_stop_ctr s hart cidx bReset).2.fw_event_map hart
          (get_cidx_code (s.active_events hart cidx))).bStarted = false) := by
  have hval := pmu_validate_ctr_valid s hart cidx hc hv
  have hnneg : ¬(((get_cidx_type (s.active_events hart cidx) : Nat) : Int) < 0) :=
    not_lt.2 (Int.natCast_nonneg _)
  unfold sbi_pmu_stop_ctr
  simp only [hval, if_neg hnneg]
  by_cases hfw : ((get_cidx_type (s.active_events hart cidx) : Nat) : Int) =
      ((SBI_PMU_EVENT_TYPE_FW : Nat) : Int)
  · simp only [if_pos hfw, pmu_stop_fw_ctr]
    cases bReset
    · simp only [Bool.false_eq_true, and_false, if_false]
      refine ⟨iff_of_false (by simpa using hv) not_false, fun hx => absurd rfl hx,
        fun _ => ⟨trivial, by simp [updFw]⟩⟩
    · simp only [eq_self_iff_true, and_self, if_true]
      refine ⟨iff_of_true (by simp [updActive]) trivial, fun hx => absurd rfl hx,
        fun _ => ⟨trivial, by simp [updActive, updFw]⟩⟩
  · have hfty : get_cidx_type (s.active_events hart cidx) ≠ SBI_PMU_EVENT_TYPE_FW :=
      fun hx => hfw (by exact_mod_cast hx)
    simp only [if_neg hfw, pmu_stop_hw_ctr]
    by_cases hrun : (s.csr CSR_MCOUNTEREN).testBit cidx ∧
        ¬(s.csr CSR_MCOUNTINHIBIT).testBit cidx
    · simp only [if_pos hrun, writeCsr]
      cases bReset
      · simp only [Bool.false_eq_true, and_false, if_false]
        refine ⟨iff_of_false (by simpa using hv) not_false,
          fun hx => absurd rfl hx, fun hx => absurd hx hfty⟩
      · simp only [eq_self_iff_true, and_self, if_true]
        refine ⟨iff_of_true (by simp [updActive]) trivial,
          fun hx => absurd rfl hx, fun hx => absurd hx hfty⟩
    · simp only [if_neg hrun]
      have hne : ¬(SBI_EALREADY_STOPPED = (0 : Int) ∧ bReset = true) :=
        fun hx => (by decide : SBI_EALREADY_STOPPED ≠ (0 : Int)) hx.1
      simp only [if_neg hne]
      refine ⟨iff_of_false (by simpa using hv)
          (fun hx => (by decide : SBI_EALREADY_STOPPED ≠ (0 : Int)) hx.1),
        fun _ => trivial, fun hx => absurd hx hfty⟩

/-- C7 witness: stopping firmware-bound counter 2 of hart 0 in `stateD`
with reset requested. -/
theorem stop_ctr_reset_binding_witness :
    ((sbi_pmu_stop_ctr stateD 0 2 true).2.active_events 0 2 =
        SBI_PMU_EVENT_IDX_INVALID ↔
      ((sbi_pmu_stop_ctr stateD 0 2 true).1 = 0 ∧ true = true)) ∧
    ((sbi_pmu_stop_ctr stateD 0 2 true).1 ≠ 0 →
      (sbi_pmu_stop_ctr stateD 0 2 true).2.active_events = stateD.active_events) ∧
    (get_cidx_type (stateD.active_events 0 2) = SBI_PMU_EVENT_TYPE_FW →
      (sbi_pmu_stop_ctr stateD 0 2 true).1 = 0 ∧
      ((sbi_pmu_stop_ctr stateD 0 2 true).2.fw_event_map 0
          (get_cidx_code (stateD.active_events 0 2))).bStarted = false) :=
  stop_ctr_reset_binding stateD 0 2 true (by decide) (by decide)

/-- C8 (confirmed): `increment(fw_id)` returns Invalid exactly when
`fw_id` is at or beyond the firmware event maximum; below it, the state
is untouched when the event is not started, and when it is started the
count increases by exactly one, wrapping modularly at `2 ^ xlen`. -/
theorem incr_fw_ctr_spec (s : PmuState) (hart fw_id : Nat) :
    ((sbi_pmu_incr_fw_ctr s hart fw_id).1 = SBI_EINVAL ↔ SBI_PMU_FW_MAX ≤ fw_id) ∧
    (fw_id < SBI_PMU_FW_MAX →
      ((s.fw_event_map hart fw_id).bStarted = false →
        (sbi_pmu_incr_fw_ctr s hart fw_id).2 = s) ∧
      ((s.fw_event_map hart fw_id).bStarted = true →
        ((sbi_pmu_incr_fw_ctr s hart fw_id).2.fw_event_map hart fw_id).curr_count =
          ((s.fw_event_map hart fw_id).curr_count + 1) % 2 ^ s.xlen)) := by
  unfold sbi_pmu_incr_fw_ctr
  by_cases hmax : SBI_PMU_FW_MAX ≤ fw_id
  · rw [if_pos hmax]
    exact ⟨iff_of_true rfl hmax, fun hx => absurd hmax (by omega)⟩
  · rw [if_neg hmax]
    by_cases hst : (s.fw_event_map hart fw_id).bStarted
    · simp only [if_pos hst]
      refine ⟨iff_of_false (fun hx => (by decide : ¬((0 : Int) = SBI_EINVAL)) hx) hmax,
        fun _ => ⟨fun hx => absurd hst (by simp [hx]), fun _ => by simp [updFw]⟩⟩
    · simp only [if_neg hst]
      refine ⟨iff_of_false (fun hx => (by decide : ¬((0 : Int) = SBI_EINVAL)) hx) hmax,
        fun _ => ⟨fun _ => by trivial, fun hx => absurd hx hst⟩⟩

/-- C8 witness: incrementing started firmware event 1 on hart 0 of
`stateD`. -/
theorem incr_fw_ctr_spec_witness :
    ((sbi_pmu_incr_fw_ctr stateD 0 1).1 = SBI_EINVAL ↔ SBI_PMU_FW_MAX ≤ 1) ∧
    (1 < SBI_PMU_FW_MAX →
      ((stateD.fw_event_map 0 1).bStarted = false →
        (sbi_pmu_incr_fw_ctr stateD 0 1).2 = stateD) ∧
      ((stateD.fw_event_map 0 1).bStarted = true →
        ((sbi_pmu_incr_fw_ctr stateD 0 1).2.fw_event_map 0 1).curr_count =
          ((stateD.fw_event_map 0 1).curr_count + 1) % 2 ^ stateD.xlen)) :=
  incr_fw_ctr_spec stateD 0 1

/-- C9 (amended): `get_info(idx)` returns Invalid exactly when
`idx > total_counters` (not `≥`) or `idx = 1`; for `idx ≤ num_hw_ctrs`
(not `<`) it reports type Hardware, CSR address `0xC00 + idx`, width 63
for indices 0 and 2 and the hart-reported width otherwise; for
`num_hw_ctrs < idx ≤ total_counters` it reports type Firmware and width
`xlen - 1`. -/
theorem get_ctr_info_spec_amended (s : PmuState) (cidx old : Nat)
    (h : s.num_hw_ctrs ≤ s.total_ctrs) :
    ((sbi_pmu_get_ctr_info s cidx old).1 = SBI_EINVAL ↔
      (s.total_ctrs < cidx ∨ cidx = 1)) ∧
    (cidx ≠ 1 → cidx ≤ s.num_hw_ctrs →
      sbi_pmu_get_ctr_info s cidx old =
        ((0 : Int), ctr_info_value s.xlen (CSR_CYCLE + cidx)
          (if cidx = 0 ∨ cidx = 2 then 63 else s.hart_pmu_event_bits) SBI_PMU_CTR_TYPE_HW)) ∧
    (cidx ≠ 1 → s.num_hw_ctrs < cidx → cidx ≤ s.total_ctrs →
      sbi_pmu_get_ctr_info s cidx old =
        ((0 : Int), ctr_info_value s.xlen 0 (s.xlen - 1) SBI_PMU_CTR_TYPE_FW)) := by
  refine ⟨?_, ?_, ?_⟩
  · unfold sbi_pmu_get_ctr_info
    split_ifs with h1 h2 h3
    · exact iff_of_true rfl h1
    all_goals exact iff_of_false (fun hx => (by decide : ¬((0 : Int) = SBI_EINVAL)) hx) h1
  · intro hne hle
    unfold sbi_pmu_get_ctr_info
    rw [if_neg (by omega), if_pos hle]
  · intro hne hgt hle
    unfold sbi_pmu_get_ctr_info
    rw [if_neg (by omega), if_neg (by omega)]

/-- C9 witness: the amended theorem at `stateE` and index 5. -/
theorem get_ctr_info_spec_amended_witness :
    ((sbi_pmu_get_ctr_info stateE 5 0).1 = SBI_EINVAL ↔
      (stateE.total_ctrs < 5 ∨ 5 = 1)) ∧
    ((5 : Nat) ≠ 1 → 5 ≤ stateE.num_hw_ctrs →
      sbi_pmu_get_ctr_info stateE 5 0 =
        ((0 : Int), ctr_info_value stateE.xlen (CSR_CYCLE + 5)
          (if (5 : Nat) = 0 ∨ (5 : Nat) = 2 then 63 else stateE.hart_pmu_event_bits)
          SBI_PMU_CTR_TYPE_HW)) ∧
    ((5 : Nat) ≠ 1 → stateE.num_hw_ctrs < 5 → 5 ≤ stateE.total_ctrs →
      sbi_pmu_get_ctr_info stateE 5 0 =
        ((0 : Int), ctr_info_value stateE.xlen 0 (stateE.xlen - 1) SBI_PMU_CTR_TYPE_FW)) :=
  get_ctr_info_spec_amended stateE 5 0 (by decide)

/-- C9 counterexample: at `stateE` (`num_hw_ctrs = 10`,
`total_ctrs = 26`), `get_info(26)` succeeds although `26 ≥ 26` is out of
range per the claim, and `get_info(10)` reports type Hardware although
index 10 is a firmware index under the claimed partition
(`idx ≥ num_hw_ctrs`). -/
theorem get_ctr_info_boundary_counterexample :
    (sbi_pmu_get_ctr_info stateE 26 0).1 = (0 : Int) ∧
    stateE.total_ctrs ≤ 26 ∧
    sbi_pmu_get_ctr_info stateE 10 0 =
      ((0 : Int), ctr_info_value 64 (CSR_CYCLE + 10) 40 SBI_PMU_CTR_TYPE_HW) ∧
    stateE.num_hw_ctrs ≤ 10 ∧
    SBI_PMU_CTR_TYPE_HW ≠ SBI_PMU_CTR_TYPE_FW ∧
    (0 : Int) ≠ SBI_EINVAL := by
  refine ⟨by decide, by decide, by decide, by decide, by decide, by decide⟩

/-- C10 (code bug): `pmu_validate_ctr` loads
`active_events[hartid][cidx]` before the `cidx >= total_ctrs` bounds
check: for `cidx = 100` it does return Invalid, but the recorded access
trace shows the binding-table read at index 100, beyond the
`SBI_PMU_HW_CTR_MAX + SBI_PMU_FW_CTR_MAX = 48` columns of the array, so
the bounds check does not guard the access. -/
theorem validate_reads_before_bounds_check :
    stateA.total_ctrs ≤ 100 ∧
    (pmu_validate_ctr_traced stateA 0 100).2 = [100] ∧
    (pmu_validate_ctr stateA 0 100).1 = SBI_EINVAL ∧
    (sbi_pmu_read_ctr stateA 0 100 7).1 = SBI_EINVAL ∧
    SBI_PMU_HW_CTR_MAX + SBI_PMU_FW_CTR_MAX ≤ 100 := by
  refine ⟨by decide, by decide, by decide, by decide, by decide⟩
